import Mathlib

/-!
Shallow embedding of the kpowa-server referral-and-login service
(`src/domain/errors.rs`, `src/domain/fields.rs`, `src/domain/events.rs`,
`src/utils/jwt.rs`, `src/routes/auth.rs`, `src/routes/user.rs`,
`src/repository.rs`) together with theorems settling the specification
claims about it.

The Postgres store, the broadcast channel and the jsonwebtoken crate are
external collaborators of the code under `src/`; they are represented by
call-indexed oracles (`Env`) respectively by an abstract signed-token type,
while every piece of control flow of the repository's own code is
translated statement by statement.
-/

namespace Kpowa

/-! ## Errors (`src/domain/errors.rs`) -/

/-- `DatabaseError` from `src/domain/errors.rs` (lines 4-6). -/
inductive DatabaseError where
  | ServerError
deriving DecidableEq, Repr

/-- `ApiError` from `src/domain/errors.rs` (lines 8-12). -/
inductive ApiError where
  | InvalidInviteCode
  | ServerError
  | AuthenticationError
deriving DecidableEq, Repr

/-- `impl From<DatabaseError> for ApiError` (`errors.rs` lines 14-20). -/
def ApiError.fromDatabaseError : DatabaseError → ApiError
  | .ServerError => .ServerError

/-- `JWTError` from `src/domain/errors.rs` (lines 38-42); the embedded
`jsonwebtoken::errors::ErrorKind` payload is dropped because the `From`
impl below discards it anyway. -/
inductive JWTError where
  | GenerationFailed
  | DecodeFailed
deriving DecidableEq, Repr

/-- `impl From<JWTError> for ApiError` (`errors.rs` lines 44-48): every
JWT failure becomes `AuthenticationError`, the variant is ignored. -/
def ApiError.fromJWTError : JWTError → ApiError :=
  fun _ => .AuthenticationError

/-! ## Domain model (`src/domain/fields.rs`, `src/domain/events.rs`) -/

/-- `User` from `src/domain/fields.rs` (lines 64-71).  `Username` and
`InviteCode` are newtypes over `String` in the source; they are represented
by plain strings here. -/
structure User where
  username : String
  invite_code : String
  referred_by : Option String
  referrals : Int
deriving DecidableEq, Repr

/-- Result of `InviteCode::new` (`fields.rs` lines 37-44).  The Rust
function returns `Self` and has no error channel at all; the byte slice
`&username[..=2]` panics — string-slice out of range — when the username
is shorter than three bytes or when byte 3 falls inside a multi-byte
character.  `panicked` models that panic. -/
inductive InviteCodeResult where
  | code (c : String)
  | panicked
deriving DecidableEq, Repr

/-- UTF-8 byte length of a character sequence, as Rust's `str::len`
counts it. -/
def utf8Len (l : List Char) : Nat :=
  (l.map Char.utf8Size).sum

/-- Rust's byte slice `&s[..n]` over the characters of `s`: `some pre`
when byte offset `n` is a character boundary, with `pre` the characters
making up the first `n` bytes; `none` — the slice panics — when the
string is shorter than `n` bytes or `n` falls inside a multi-byte
character. -/
def takeBytes : List Char → Nat → Option (List Char)
  | _, 0 => some []
  | [], _ + 1 => none
  | c :: cs, n + 1 =>
    if c.utf8Size ≤ n + 1 then (takeBytes cs (n + 1 - c.utf8Size)).map (c :: ·) else none

/-- `InviteCode::new` (`fields.rs` lines 38-44): the first three bytes of
the username (`&username[..=2]`) concatenated with a random draw from
`1001..=9999` (`generate_invite_code_digit`).  The random draw is passed
in as `digit`; the byte slice panics unless offset 3 is a character
boundary of the username. -/
def InviteCode.new (username : String) (digit : Nat) : InviteCodeResult :=
  match takeBytes username.data 3 with
  | none => .panicked
  | some pre => .code (String.mk pre ++ toString digit)

/-- `NewReferralEvent` from `src/domain/events.rs` (lines 5-8). -/
structure NewReferralEvent where
  referrer : String
  referred_user : String
deriving DecidableEq, Repr

/-- `AppEvent` from `src/domain/events.rs` (lines 12-16). -/
inductive AppEvent where
  | NewLogin (u : User)
  | NewRegister (u : User)
  | NewReferral (e : NewReferralEvent)
deriving DecidableEq, Repr

/-! ## Token service (`src/utils/jwt.rs`) -/

/-- `JwtConfig` from `src/config.rs` as consumed by `src/utils/jwt.rs`:
symmetric secret, issuer string and TTL (`exp`) in seconds. -/
structure JwtConfig where
  secret : String
  iss : String
  exp : Nat
deriving DecidableEq, Repr

/-- `Claims` from `src/domain/fields.rs` (lines 84-89). -/
structure Claims where
  sub : String
  iss : String
  exp : Nat
deriving DecidableEq, Repr

/-- Modelled from the spec: the jsonwebtoken crate is not part of this
repository, so a signed token is represented abstractly as the encoded
claims plus the secret they were signed with; decoding with a secret
checks equality of secrets (signature validity). -/
structure Token where
  claims : Claims
  signedWith : String
deriving DecidableEq, Repr

/-- `generate_auth_token` (`jwt.rs` lines 14-36): claims are
`{sub = username, iss = config.iss, exp = now + config.exp}` signed with
the configured secret.  `now` is the current UNIX time in seconds. -/
def generate_auth_token (username : String) (cfg : JwtConfig) (now : Nat) : Token :=
  { claims := { sub := username, iss := cfg.iss, exp := now + cfg.exp }
    signedWith := cfg.secret }

/-- `decode_auth_token` (`jwt.rs` lines 38-50).  Modelled from the spec:
`jsonwebtoken::decode` with `Validation::default()` validates the
signature and the `exp` claim and reports any failure as a single
`DecodeFailed` error; a token is live strictly before its expiry
timestamp. -/
def decode_auth_token (t : Token) (cfg : JwtConfig) (now : Nat) : Except JWTError Claims :=
  if t.signedWith = cfg.secret ∧ now < t.claims.exp then
    .ok t.claims
  else
    .error .DecodeFailed

/-! ## The authenticate handler (`src/routes/auth.rs`)

The Postgres pool and the broadcast channel are external collaborators;
database calls are represented by call-indexed oracles so that any
sequence of store answers (including failures) can be examined, and the
random suffix source of `InviteCode::new` is a stream of draws.  The
handler's own control flow is translated line by line from
`authenticate` (`auth.rs` lines 41-89). -/

/-- `AuthenticateRequest` (`auth.rs` lines 23-28). -/
structure AuthenticateRequest where
  username : String
  invitationCode : Option String
deriving DecidableEq, Repr

/-- Oracle environment for one `authenticate` call: the `n`-th call of
each repository function (`src/repository.rs`) is answered by the oracle
at index `n`, and `digits n` is the `n`-th draw of
`generate_invite_code_digit`. -/
structure Env where
  userLookup : Nat → String → Except DatabaseError (Option User)
  inviteLookup : Nat → String → Except DatabaseError (Option User)
  create : String → String → Option String → Except DatabaseError Unit
  tokenGen : String → Except JWTError String
  digits : Nat → Nat

/-- One observable action of the handler, in execution order: a
`state.get_sender().send(...)` publication or a `generate_auth_token`
issuance that returned the given token. -/
inductive Action where
  | publish (e : AppEvent)
  | issue (token : String)
deriving DecidableEq, Repr

/-- A row inserted by `create_new_user` (`repository.rs` lines 54-75). -/
structure CreateCall where
  username : String
  invite_code : String
  referred_by : Option String
deriving DecidableEq, Repr

/-- How the `authenticate` call ended: `Ok(Json(token))`, `Err(e)` for an
`ApiError`, a panic (the `.unwrap()` on the re-read, or the byte slice in
`InviteCode::new`), or still inside the retry loop when the modelling
fuel ran out (the Rust loop simply keeps running). -/
inductive Outcome where
  | success (token : String)
  | failure (e : ApiError)
  | panicked
  | divergent
deriving DecidableEq, Repr

/-- Everything observable about one `authenticate` execution. -/
structure AuthTrace where
  outcome : Outcome
  actions : List Action
  created : List CreateCall
deriving DecidableEq, Repr

/-- The referrer computation (`auth.rs` lines 55-62): if an invitation
code was supplied, `get_user_by_invite_code` is called (invite-lookup
call 0) and any store error is replaced by `ApiError::InvalidInviteCode`
via `.map_err(|_| ApiError::InvalidInviteCode)?`; a successful lookup is
mapped to the owner's username, `None` owners included. -/
def referrerStep (env : Env) (invitationCode : Option String) :
    Except ApiError (Option String) :=
  match invitationCode with
  | some code =>
    match env.inviteLookup 0 code with
    | .error _ => .error ApiError.InvalidInviteCode
    | .ok r => .ok (r.map (·.username))
  | none => .ok none

/-- Result of the invite-code retry loop (`auth.rs` lines 64-71). -/
inductive LoopResult where
  | found (code : String)
  | dbError (e : DatabaseError)
  | panicked
  | fuelOut
deriving DecidableEq, Repr

/-- The retry loop of `auth.rs` lines 64-71: generate a candidate with
`InviteCode::new` (digit draw `d`), ask `get_user_by_invite_code`
(invite-lookup call `l`; the `?` propagates store errors), regenerate
while an owner exists, and return the first candidate confirmed to have
no owner.  `fuel` bounds the recursion depth of the model only. -/
def genLoop (env : Env) (username : String) : Nat → Nat → Nat → LoopResult
  | _, _, 0 => .fuelOut
  | d, l, fuel + 1 =>
    match InviteCode.new username (env.digits d) with
    | .panicked => .panicked
    | .code c =>
      match env.inviteLookup l c with
      | .error e => .dbError e
      | .ok (some _) => genLoop env username (d + 1) (l + 1) fuel
      | .ok none => .found c

/-- `authenticate` (`auth.rs` lines 41-89), translated statement by
statement.  User-lookup call 0 is the initial `get_user_by_username`,
call 1 the re-read after `create_new_user`; invite-lookup call 0 is the
referral lookup when a code was supplied, and the retry loop's lookups
follow. -/
def authenticate (env : Env) (fuel : Nat) (req : AuthenticateRequest) : AuthTrace :=
  match env.userLookup 0 req.username with
  | .error e => ⟨.failure (ApiError.fromDatabaseError e), [], []⟩
  | .ok (some user) =>
    match env.tokenGen user.username with
    | .error e => ⟨.failure (ApiError.fromJWTError e), [.publish (.NewLogin user)], []⟩
    | .ok tok => ⟨.success tok, [.publish (.NewLogin user), .issue tok], []⟩
  | .ok none =>
    match referrerStep env req.invitationCode with
    | .error e => ⟨.failure e, [], []⟩
    | .ok referrer =>
      match genLoop env req.username 0 (if req.invitationCode.isSome then 1 else 0) fuel with
      | .panicked => ⟨.panicked, [], []⟩
      | .dbError e => ⟨.failure (ApiError.fromDatabaseError e), [], []⟩
      | .fuelOut => ⟨.divergent, [], []⟩
      | .found code =>
        match env.create req.username code referrer with
        | .error e => ⟨.failure (ApiError.fromDatabaseError e), [], []⟩
        | .ok _ =>
          let created := [⟨req.username, code, referrer⟩]
          match env.userLookup 1 req.username with
          | .error e => ⟨.failure (ApiError.fromDatabaseError e), [], created⟩
          | .ok none => ⟨.panicked, [], created⟩
          | .ok (some user) =>
            let refActs : List Action :=
              match user.referred_by with
              | some r => [.publish (.NewReferral ⟨r, user.username⟩)]
              | none => []
            match env.tokenGen user.username with
            | .error e =>
              ⟨.failure (ApiError.fromJWTError e),
                refActs ++ [.publish (.NewRegister user)], created⟩
            | .ok tok =>
              ⟨.success tok,
                refActs ++ [.publish (.NewRegister user), .issue tok], created⟩

/-! ## User listing (`src/routes/user.rs`) -/

/-- `QueryParams` (`user.rs` lines 20-25); the integer fields are `i64`
in the source and are modelled by `Int`. -/
structure QueryParams where
  username : Option String
  page : Option Int
  limit : Option Int
deriving DecidableEq, Repr

/-- `Pagination` (`user.rs` lines 27-34). -/
structure Pagination where
  has_next : Bool
  has_prev : Bool
  current_page : Int
  total_pages : Int
deriving DecidableEq, Repr

/-- `FetchUserQuery` (`repository.rs` lines 9-14). -/
structure FetchUserQuery where
  username : Option String
  auth_user : String
  skip : Int
  limit : Int
deriving DecidableEq, Repr

/-- The query `get_users` (`user.rs` lines 49-64) hands to `fetch_users`:
`page = query.page.unwrap_or(1)`, `limit = query.limit.unwrap_or(10)`,
`skip = (page - 1) * limit`. -/
def get_users_fetch_query (q : QueryParams) (auth_user : String) : FetchUserQuery :=
  let page := q.page.getD 1
  let limit := q.limit.getD 10
  { username := q.username, auth_user := auth_user
    skip := (page - 1) * limit, limit := limit }

/-- The pagination object `get_users` builds from the store's row count
(`user.rs` lines 66-77): `total_pages = (count / limit) + 1` with Rust's
truncating `i64` division (`Int.tdiv`), `has_next = page < total_pages`,
`has_prev = page > 1`. -/
def get_users_pagination (q : QueryParams) (count : Int) : Pagination :=
  let page := q.page.getD 1
  let limit := q.limit.getD 10
  let total_pages := count.tdiv limit + 1
  { has_next := decide (page < total_pages), has_prev := decide (1 < page)
    current_page := page, total_pages := total_pages }

/-! ## SQL query construction (`src/repository.rs`) -/

/-- A value handed to `QueryBuilder::push_bind`: either a string
(`auth_user`) or an `i64` (`limit`, `skip`). -/
inductive BindValue where
  | str (s : String)
  | int (i : Int)
deriving DecidableEq, Repr

/-- `sqlx::QueryBuilder` as used by `repository.rs`: the SQL text built
so far plus the ordered list of bound parameters. -/
structure QueryBuilder where
  sql : String
  binds : List BindValue
deriving DecidableEq, Repr

/-- `QueryBuilder::push`: append raw SQL text. -/
def QueryBuilder.push (b : QueryBuilder) (s : String) : QueryBuilder :=
  { b with sql := b.sql ++ s }

/-- `QueryBuilder::push_bind`: append the next `$n` placeholder to the
SQL text and record the value as a bound parameter. -/
def QueryBuilder.push_bind (b : QueryBuilder) (v : BindValue) : QueryBuilder :=
  { sql := b.sql ++ "$" ++ toString (b.binds.length + 1), binds := b.binds ++ [v] }

/-- `append_search_param_to_query` (`repository.rs` lines 106-132):
`auth_user`, `limit` and `skip` go through `push_bind`, while a supplied
username filter is spliced into the SQL text by
`format!` — producing ` and username like \x27%...%\x27 ` — with no
escaping and no binding. -/
def append_search_param_to_query (b : QueryBuilder) (q : FetchUserQuery)
    (skip_ordering skip_pagination : Bool) : QueryBuilder :=
  let b := b.push " where username != "
  let b := b.push_bind (.str q.auth_user)
  let b :=
    match q.username with
    | some username => b.push (" and username like \x27%" ++ username ++ "%\x27 ")
    | none => b
  let b := if !skip_ordering then b.push " order by created_on desc " else b
  let b :=
    if !skip_pagination then
      ((((b.push " limit ").push_bind (.int q.limit)).push " offset ").push_bind (.int q.skip))
    else b
  b

/-! ## Derived observations on traces -/

/-- The domain events a trace published, in order. -/
def AuthTrace.events (t : AuthTrace) : List AppEvent :=
  t.actions.filterMap fun a =>
    match a with
    | .publish e => some e
    | .issue _ => none

/-- Whether an action is an event publication. -/
def Action.isPublish : Action → Bool
  | .publish _ => true
  | .issue _ => false

/-- `true` iff no event publication occurs after a token issuance in the
given action list. -/
def noPublishAfterIssue : List Action → Bool
  | [] => true
  | .publish _ :: rest => noPublishAfterIssue rest
  | .issue _ :: rest => rest.all fun a => ! a.isPublish

/-- The candidate code the `i`-th iteration of the retry loop generates
when the digit stream starts at draw `d`: the three-byte username slice
plus the `(d+i)`-th random draw.  (The `getD` default is never reached
in the theorems below: they only speak of candidates when the slice
succeeded.) -/
def loopCandidate (env : Env) (u : String) (d i : Nat) : String :=
  String.mk ((takeBytes u.data 3).getD []) ++ toString (env.digits (d + i))

/-! ## Concrete oracle environments used by witnesses and
counterexamples -/

/-- A store with no user `dave` and no owner for any invite code; every
store call succeeds and user-lookup call 1 (the re-read) sees the row the
handler just inserted. -/
def envNoOwner : Env where
  userLookup := fun n _ =>
    if n = 0 then .ok none else .ok (some ⟨"dave", "dav1234", none, 0⟩)
  inviteLookup := fun _ _ => .ok none
  create := fun _ _ _ => .ok ()
  tokenGen := fun u => .ok ("token-" ++ u)
  digits := fun _ => 1234

/-- A store whose invite-code lookup fails with a database error while
everything else succeeds. -/
def envInviteLookupFails : Env where
  userLookup := fun _ _ => .ok none
  inviteLookup := fun _ _ => .error .ServerError
  create := fun _ _ _ => .ok ()
  tokenGen := fun u => .ok ("token-" ++ u)
  digits := fun _ => 1234

/-- A store that knows the user `alice`. -/
def envKnowsAlice : Env where
  userLookup := fun _ _ => .ok (some ⟨"alice", "ali4242", none, 3⟩)
  inviteLookup := fun _ _ => .ok none
  create := fun _ _ _ => .ok ()
  tokenGen := fun u => .ok ("token-" ++ u)
  digits := fun _ => 4242

/-- A store in which the first candidate code `ali1001` already has an
owner and the second draw gives the free code `ali1002`. -/
def envOneCollision : Env where
  userLookup := fun _ _ => .ok none
  inviteLookup := fun l _ =>
    if l = 0 then .ok (some ⟨"bob", "ali1001", none, 0⟩) else .ok none
  create := fun _ _ _ => .ok ()
  tokenGen := fun u => .ok ("token-" ++ u)
  digits := fun n => 1001 + n

/-- A store that knows `ann` (owner of invite code `ann4321`) but not
`dave`; the re-read after the insert sees the new row with
`referred_by = some "ann"`. -/
def envReferral : Env where
  userLookup := fun n _ =>
    if n = 0 then .ok none else .ok (some ⟨"dave", "dav1234", some "ann", 0⟩)
  inviteLookup := fun l _ =>
    if l = 0 then .ok (some ⟨"ann", "ann4321", none, 2⟩) else .ok none
  create := fun _ _ _ => .ok ()
  tokenGen := fun u => .ok ("token-" ++ u)
  digits := fun _ => 1234

/-- A store whose user lookup always answers `Ok(None)` — also for the
re-read after a successful insert. -/
def envRereadNone : Env where
  userLookup := fun _ _ => .ok none
  inviteLookup := fun _ _ => .ok none
  create := fun _ _ _ => .ok ()
  tokenGen := fun u => .ok ("token-" ++ u)
  digits := fun _ => 1234

/-! ## Theorems -/

/-- C1: the claim says a supplied invitation code with no matching owner
makes `authenticate` fail with `InvalidInviteCode` before any user is
created.  The code instead maps a *store error* of the lookup to
`InvalidInviteCode` (`auth.rs` line 58) and, when the lookup succeeds
with no owner, silently continues with `referredBy = None`: against a
store with no user `dave` and no owner of the supplied code `xyz1001`,
the request creates the user and returns a token. -/
theorem unknown_invite_code_registers_user_anyway :
    authenticate envNoOwner 5 ⟨"dave", some "xyz1001"⟩ =
      ⟨.success "token-dave",
        [.publish (.NewRegister ⟨"dave", "dav1234", none, 0⟩), .issue "token-dave"],
        [⟨"dave", "dav1234", none⟩]⟩ ∧
    (authenticate envNoOwner 5 ⟨"dave", some "xyz1001"⟩).outcome ≠
      .failure .InvalidInviteCode ∧
    (authenticate envNoOwner 5 ⟨"dave", some "xyz1001"⟩).created ≠ [] := by
  refine ⟨rfl, by decide, by decide⟩

/-- C2: the claim says every store failure in `authenticate` surfaces as
`ServerError` and `InvalidInviteCode` is reserved for a supplied code
with no matching owner.  When the store's invite-code lookup fails with
a database error, `.map_err(|_| ApiError::InvalidInviteCode)?`
(`auth.rs` line 58) surfaces that store failure as `InvalidInviteCode`
instead. -/
theorem store_failure_surfaces_as_invalid_invite_code :
    authenticate envInviteLookupFails 5 ⟨"dave", some "xyz1001"⟩ =
      ⟨.failure .InvalidInviteCode, [], []⟩ ∧
    (authenticate envInviteLookupFails 5 ⟨"dave", some "xyz1001"⟩).outcome ≠
      .failure .ServerError := by
  refine ⟨rfl, by decide⟩

/-- Helper: UTF-8 length distributes over concatenation. -/
theorem utf8Len_append (a b : List Char) :
    utf8Len (a ++ b) = utf8Len a + utf8Len b := by
  simp [utf8Len]

/-- Helper: a zero-byte slice always succeeds with the empty string. -/
theorem takeBytes_zero (l : List Char) : takeBytes l 0 = some [] := by
  cases l <;> rfl

/-- Helper (soundness of the byte-slice model): a successful slice
returns an actual character-level split of the string whose first part
is exactly `n` bytes long. -/
theorem takeBytes_sound : ∀ (l : List Char) (n : Nat) (pre : List Char),
    takeBytes l n = some pre → ∃ rest, l = pre ++ rest ∧ utf8Len pre = n := by
  intro l
  induction l with
  | nil =>
    intro n pre h
    cases n with
    | zero =>
      rw [takeBytes_zero] at h
      injection h with h'
      subst h'
      exact ⟨[], rfl, rfl⟩
    | succ m => simp [takeBytes] at h
  | cons c cs ih =>
    intro n pre h
    cases n with
    | zero =>
      rw [takeBytes_zero] at h
      injection h with h'
      subst h'
      exact ⟨c :: cs, rfl, rfl⟩
    | succ m =>
      unfold takeBytes at h
      by_cases hle : c.utf8Size ≤ m + 1
      · rw [if_pos hle] at h
        cases htb : takeBytes cs (m + 1 - c.utf8Size) with
        | none => rw [htb] at h; exact Option.noConfusion h
        | some pre2 =>
          rw [htb, Option.map_some'] at h
          injection h with h'
          subst h'
          obtain ⟨rest, hcs, hlen⟩ := ih (m + 1 - c.utf8Size) pre2 htb
          refine ⟨rest, by rw [hcs, List.cons_append], ?_⟩
          have hcons : utf8Len (c :: pre2) = c.utf8Size + utf8Len pre2 := rfl
          omega
      · rw [if_neg hle] at h
        exact Option.noConfusion h

/-- Helper (completeness of the byte-slice model): if the string splits
at a character boundary after exactly `n` bytes, the slice succeeds and
returns that first part. -/
theorem takeBytes_complete : ∀ (pre rest : List Char) (n : Nat),
    utf8Len pre = n → takeBytes (pre ++ rest) n = some pre := by
  intro pre
  induction pre with
  | nil =>
    intro rest n h
    obtain rfl : 0 = n := h
    exact takeBytes_zero rest
  | cons c pre2 ih =>
    intro rest n h
    have hsz : 1 ≤ c.utf8Size := Char.utf8Size_pos c
    have hn : c.utf8Size + utf8Len pre2 = n := by rw [← h]; rfl
    cases n with
    | zero => omega
    | succ m =>
      show takeBytes (c :: (pre2 ++ rest)) (m + 1) = some (c :: pre2)
      unfold takeBytes
      rw [if_pos (by omega : c.utf8Size ≤ m + 1)]
      rw [show m + 1 - c.utf8Size = utf8Len pre2 from by omega, ih rest (utf8Len pre2) rfl]
      rfl

/-- C3 counterexample: on the two-character username `"ab"` (two bytes),
`InviteCode::new` panics (string-slice out of range) instead of failing
with an `InputError` — no `InputError` exists anywhere in the code. -/
theorem short_username_generation_panics_cex :
    InviteCode.new "ab" 1234 = .panicked := by decide

/-- C3 amended: for every username shorter than the three-byte slice
`&username[..=2]`, `InviteCode::new` panics rather than returning an
`InputError` (no such type exists and the function has no error
channel); in full, the slice takes the first three bytes, so generation
returns prefix-plus-digit exactly when the username splits at a
three-byte character boundary, and panics otherwise — too short, or
byte 3 inside a multi-byte character. -/
theorem short_username_generation_panics (u : String) (d : Nat) :
    (utf8Len u.data < 3 → InviteCode.new u d = .panicked) ∧
    (∀ pre rest, u.data = pre ++ rest → utf8Len pre = 3 →
      InviteCode.new u d = .code (String.mk pre ++ toString d)) ∧
    (¬ (∃ pre rest, u.data = pre ++ rest ∧ utf8Len pre = 3) →
      InviteCode.new u d = .panicked) := by
  refine ⟨?_, ?_, ?_⟩
  · intro h
    unfold InviteCode.new
    cases htb : takeBytes u.data 3 with
    | none => rfl
    | some pre =>
      obtain ⟨rest, heq, hlen⟩ := takeBytes_sound u.data 3 pre htb
      have hadd := utf8Len_append pre rest
      rw [← heq] at hadd
      exfalso
      omega
  · intro pre rest heq hlen
    unfold InviteCode.new
    rw [heq, takeBytes_complete pre rest 3 hlen]
  · intro h
    unfold InviteCode.new
    cases htb : takeBytes u.data 3 with
    | none => rfl
    | some pre =>
      obtain ⟨rest, heq, hlen⟩ := takeBytes_sound u.data 3 pre htb
      exact absurd ⟨pre, rest, heq, hlen⟩ h

/-- C3 witness: the amended statement at `"ab"` (2 bytes — panic),
`"abc"` (boundary at byte 3 — code), `"éa"` (2 characters but 3 bytes —
code, where Rust also succeeds), and `"ééé"` (3 characters but byte 3
mid-character — panic, where Rust also panics). -/
theorem short_username_generation_panics_witness :
    InviteCode.new "ab" 9999 = .panicked ∧
    InviteCode.new "abc" 1001 = .code (String.mk ['a', 'b', 'c'] ++ toString 1001) ∧
    InviteCode.new "éa" 1001 = .code (String.mk ['é', 'a'] ++ toString 1001) ∧
    InviteCode.new "ééé" 9999 = .panicked :=
  ⟨(short_username_generation_panics "ab" 9999).1 (by decide),
   (short_username_generation_panics "abc" 1001).2.1 ['a', 'b', 'c'] [] rfl (by decide),
   (short_username_generation_panics "éa" 1001).2.1 ['é', 'a'] [] rfl (by decide),
   (short_username_generation_panics "ééé" 9999).2.2 (by
      rintro ⟨pre, rest, heq, hlen⟩
      have hc := takeBytes_complete pre rest 3 hlen
      rw [← heq] at hc
      rw [show takeBytes "ééé".data 3 = none from by decide] at hc
      exact Option.noConfusion hc)⟩

/-- C4: a token issued for `u` decodes, with the same configured secret
and strictly before the TTL has elapsed, to claims whose subject is `u`;
once the TTL has elapsed (or under a different secret) decoding fails,
and every `JWTError` surfaces as the single `AuthenticationError`
variant, so expiry and signature failure are indistinguishable to the
caller. -/
theorem token_roundtrip_and_expiry (u : String) (cfg : JwtConfig) (t0 t1 : Nat) :
    (t1 < t0 + cfg.exp →
      decode_auth_token (generate_auth_token u cfg t0) cfg t1 =
        .ok ⟨u, cfg.iss, t0 + cfg.exp⟩) ∧
    (t0 + cfg.exp ≤ t1 →
      decode_auth_token (generate_auth_token u cfg t0) cfg t1 = .error .DecodeFailed) ∧
    (∀ cfg2 : JwtConfig, cfg2.secret ≠ cfg.secret →
      decode_auth_token (generate_auth_token u cfg t0) cfg2 t1 = .error .DecodeFailed) ∧
    (∀ e : JWTError, ApiError.fromJWTError e = .AuthenticationError) := by
  refine ⟨?_, ?_, ?_, fun e => rfl⟩
  · intro h
    unfold decode_auth_token generate_auth_token
    exact if_pos ⟨rfl, h⟩
  · intro h
    have hns : ¬ (cfg.secret = cfg.secret ∧ t1 < t0 + cfg.exp) := by
      rintro ⟨-, hc⟩
      omega
    unfold decode_auth_token generate_auth_token
    exact if_neg hns
  · intro cfg2 h
    have hns : ¬ (cfg.secret = cfg2.secret ∧ t1 < t0 + cfg.exp) := fun hc => h hc.1.symm
    unfold decode_auth_token generate_auth_token
    exact if_neg hns

/-- C4 witness: the round-trip at `u = "alice"`, secret `"s"`, TTL 100,
issued at time 0, decoded at times 50 and 150. -/
theorem token_roundtrip_and_expiry_witness :
    decode_auth_token (generate_auth_token "alice" ⟨"s", "kpowa", 100⟩ 0)
        ⟨"s", "kpowa", 100⟩ 50 = .ok ⟨"alice", "kpowa", 100⟩ ∧
    decode_auth_token (generate_auth_token "alice" ⟨"s", "kpowa", 100⟩ 0)
        ⟨"s", "kpowa", 100⟩ 150 = .error .DecodeFailed :=
  ⟨(token_roundtrip_and_expiry "alice" ⟨"s", "kpowa", 100⟩ 0 50).1 (by decide),
   (token_roundtrip_and_expiry "alice" ⟨"s", "kpowa", 100⟩ 0 150).2.1 (by decide)⟩

/-- C5: when the submitted username is found in the store (user-lookup
call 0 answers `Ok(Some(user))`) and token issuance succeeds, the whole
trace is: publish exactly one `NewLogin(user)`, then issue a token for
the existing identity; nothing is created.  The statement holds for
every supplied invitation code `ic` and never consults the invite-code
oracle, so a supplied code is ignored with no validation and no error. -/
theorem login_branch_trace (env : Env) (fuel : Nat) (u : String) (ic : Option String)
    (user : User) (tok : String)
    (hu : env.userLookup 0 u = .ok (some user))
    (ht : env.tokenGen user.username = .ok tok) :
    authenticate env fuel ⟨u, ic⟩ =
      ⟨.success tok, [.publish (.NewLogin user), .issue tok], []⟩ ∧
    (authenticate env fuel ⟨u, ic⟩).events = [.NewLogin user] ∧
    (authenticate env fuel ⟨u, ic⟩).created = [] := by
  have h : authenticate env fuel ⟨u, ic⟩ =
      ⟨.success tok, [.publish (.NewLogin user), .issue tok], []⟩ := by
    simp only [authenticate, hu, ht]
  exact ⟨h, by rw [h]; rfl, by rw [h]⟩

/-- C5 witness: the login branch against a store that knows `alice`,
with an ignored invitation code supplied. -/
theorem login_branch_trace_witness :
    authenticate envKnowsAlice 5 ⟨"alice", some "whatever"⟩ =
      ⟨.success "token-alice",
        [.publish (.NewLogin ⟨"alice", "ali4242", none, 3⟩), .issue "token-alice"], []⟩ ∧
    (authenticate envKnowsAlice 5 ⟨"alice", some "whatever"⟩).events =
      [.NewLogin ⟨"alice", "ali4242", none, 3⟩] ∧
    (authenticate envKnowsAlice 5 ⟨"alice", some "whatever"⟩).created = [] :=
  login_branch_trace envKnowsAlice 5 "alice" (some "whatever")
    ⟨"alice", "ali4242", none, 3⟩ "token-alice" rfl rfl

/-- C8: `get_users` pagination is 1-indexed with defaults `page = 1`
and `limit = 10` (so the default offset is 0), computes
`total_pages = count / limit + 1` with truncating integer division —
hence `k + 1` pages when the count is the exact multiple `k * limit` —
and sets `has_prev = page > 1`, `has_next = page < total_pages`; at
page 2, limit 10 and 25 rows this gives `has_prev = has_next = true`
and `total_pages = 3`. -/
theorem get_users_pagination_spec :
    (∀ (un : Option String) (count : Int) (a : String),
      get_users_pagination ⟨un, none, none⟩ count =
        ⟨decide (1 < count.tdiv 10 + 1), false, 1, count.tdiv 10 + 1⟩ ∧
      get_users_fetch_query ⟨un, none, none⟩ a = ⟨un, a, 0, 10⟩) ∧
    (∀ (q : QueryParams) (count : Int),
      (get_users_pagination q count).total_pages = count.tdiv (q.limit.getD 10) + 1 ∧
      (get_users_pagination q count).has_prev = decide (1 < q.page.getD 1) ∧
      (get_users_pagination q count).has_next =
        decide (q.page.getD 1 < count.tdiv (q.limit.getD 10) + 1)) ∧
    (∀ (k m p : Int), m ≠ 0 →
      (get_users_pagination ⟨none, some p, some m⟩ (k * m)).total_pages = k + 1) ∧
    (∀ (p m : Int) (a : String),
      (get_users_fetch_query ⟨none, some p, some m⟩ a).skip = (p - 1) * m) ∧
    get_users_pagination ⟨none, some 2, some 10⟩ 25 = ⟨true, true, 2, 3⟩ := by
  refine ⟨?_, ?_, ?_, ?_, by decide⟩
  · intro un count a
    exact ⟨rfl, by simp [get_users_fetch_query]⟩
  · intro q count
    exact ⟨rfl, rfl, rfl⟩
  · intro k m p h
    simp only [get_users_pagination, Option.getD]
    rw [Int.mul_tdiv_cancel k h]
  · intro p m a
    rfl

/-- C8 witness: the general statements at concrete inputs — default
query against 25 rows, exact multiple `2 * 10`, and skip at page 3. -/
theorem get_users_pagination_spec_witness :
    get_users_pagination ⟨none, none, none⟩ 25 =
      ⟨decide ((1 : Int) < (25 : Int).tdiv 10 + 1), false, 1, (25 : Int).tdiv 10 + 1⟩ ∧
    (get_users_pagination ⟨none, some 1, some 10⟩ (2 * 10)).total_pages = 2 + 1 ∧
    (get_users_fetch_query ⟨none, some 3, some 10⟩ "alice").skip = (3 - 1) * 10 :=
  ⟨((get_users_pagination_spec.1 none 25 "x").1),
   get_users_pagination_spec.2.2.1 2 10 1 (by decide),
   get_users_pagination_spec.2.2.2.1 3 10 "alice"⟩

/-- C9: in the registration path, once `create_new_user` has succeeded,
the handler re-reads the user and calls `.unwrap()` on the resulting
`Option` (`auth.rs` lines 74-76); if that re-read completes successfully
but finds no user, the handler panics instead of returning an error
response. -/
theorem reread_none_panics (env : Env) (fuel : Nat) (req : AuthenticateRequest)
    (c : String) (ref : Option String)
    (h0 : env.userLookup 0 req.username = .ok none)
    (h1 : referrerStep env req.invitationCode = .ok ref)
    (h2 : genLoop env req.username 0
            (if req.invitationCode.isSome then 1 else 0) fuel = .found c)
    (h3 : env.create req.username c ref = .ok ())
    (h4 : env.userLookup 1 req.username = .ok none) :
    (authenticate env fuel req).outcome = .panicked ∧
    (authenticate env fuel req).created = [⟨req.username, c, ref⟩] := by
  simp only [authenticate, h0, h1, h2, h3, h4]
  exact ⟨trivial, trivial⟩

/-- C9 witness: a store whose user lookup always answers `Ok(None)` —
including the re-read after the successful insert — makes the handler
panic on the `.unwrap()`. -/
theorem reread_none_panics_witness :
    (authenticate envRereadNone 5 ⟨"dave", none⟩).outcome = .panicked ∧
    (authenticate envRereadNone 5 ⟨"dave", none⟩).created =
      [⟨"dave", "dav1234", none⟩] :=
  reread_none_panics envRereadNone 5 ⟨"dave", none⟩ "dav1234" none
    rfl rfl (by decide) rfl rfl

/-- Helper: when the three-byte slice of the username succeeds,
`InviteCode::new` returns the prefix-plus-digit code. -/
theorem inviteCode_new_of_take {u : String} {pre : List Char} (x : Nat)
    (h : takeBytes u.data 3 = some pre) :
    InviteCode.new u x = .code (String.mk pre ++ toString x) := by
  unfold InviteCode.new
  rw [h]

/-- Helper: inversion of a normal `InviteCode::new` return. -/
theorem inviteCode_new_code_inv {u : String} {x : Nat} {c : String}
    (h : InviteCode.new u x = .code c) :
    ∃ pre, takeBytes u.data 3 = some pre ∧ c = String.mk pre ++ toString x := by
  unfold InviteCode.new at h
  cases htb : takeBytes u.data 3 with
  | none =>
    rw [htb] at h
    exact InviteCodeResult.noConfusion h
  | some pre =>
    rw [htb] at h
    injection h with h'
    exact ⟨pre, rfl, h'.symm⟩

/-- Helper: shifting the digit-stream base of a loop candidate. -/
theorem loopCandidate_succ (env : Env) (u : String) (d i : Nat) :
    loopCandidate env u (d + 1) i = loopCandidate env u d (i + 1) := by
  unfold loopCandidate
  rw [show d + 1 + i = d + (i + 1) from by omega]

/-- Helper: the loop candidate when the byte slice succeeds. -/
theorem loopCandidate_of_take (env : Env) (u : String) (d i : Nat) {pre : List Char}
    (h : takeBytes u.data 3 = some pre) :
    loopCandidate env u d i = String.mk pre ++ toString (env.digits (d + i)) := by
  unfold loopCandidate
  rw [h]
  rfl

/-- Helper (soundness of the retry loop): a code the loop returns was
generated from the digit stream and was confirmed ownerless by the store
lookup of its own iteration, every earlier candidate having been seen
owned. -/
theorem genLoop_found_sound (env : Env) (u : String) :
    ∀ fuel d l c, genLoop env u d l fuel = .found c →
      ∃ i, i < fuel ∧ c = loopCandidate env u d i ∧
        env.inviteLookup (l + i) c = .ok none ∧
        ∀ j, j < i → ∃ w,
          env.inviteLookup (l + j) (loopCandidate env u d j) = .ok (some w) := by
  intro fuel
  induction fuel with
  | zero =>
    intro d l c h
    simp [genLoop] at h
  | succ f ih =>
    intro d l c h
    cases hnew : InviteCode.new u (env.digits d) with
    | panicked =>
      simp only [genLoop, hnew] at h
      exact LoopResult.noConfusion h
    | code c0 =>
      obtain ⟨pre, htb, hc0⟩ := inviteCode_new_code_inv hnew
      have hcand0 : c0 = loopCandidate env u d 0 := by
        rw [loopCandidate_of_take env u d 0 htb, Nat.add_zero, hc0]
      simp only [genLoop, hnew] at h
      cases hlk : env.inviteLookup l c0 with
      | error e =>
        simp only [hlk] at h
        exact LoopResult.noConfusion h
      | ok r =>
        cases r with
        | some w =>
          simp only [hlk] at h
          obtain ⟨i, hif, hc, hnone, hprev⟩ := ih (d + 1) (l + 1) c h
          refine ⟨i + 1, by omega, ?_, ?_, ?_⟩
          · rw [hc, loopCandidate_succ]
          · rw [show l + (i + 1) = l + 1 + i from by omega]
            exact hnone
          · intro j hj
            cases j with
            | zero =>
              refine ⟨w, ?_⟩
              rw [Nat.add_zero, ← hcand0]
              exact hlk
            | succ j' =>
              obtain ⟨w', hw'⟩ := hprev j' (by omega)
              refine ⟨w', ?_⟩
              rw [show l + (j' + 1) = l + 1 + j' from by omega, ← loopCandidate_succ]
              exact hw'
        | none =>
          simp only [hlk] at h
          obtain rfl : c0 = c := by injection h
          refine ⟨0, by omega, hcand0, ?_, by omega⟩
          rw [Nat.add_zero]
          exact hlk

/-- Helper (termination of the retry loop): when the three-byte slice
of the username succeeds, if the first `i` candidates are owned and the
`i`-th is ownerless, the loop stops at iteration `i` and returns that
candidate. -/
theorem genLoop_found_complete (env : Env) (u : String) {pre : List Char}
    (htb : takeBytes u.data 3 = some pre) :
    ∀ i d l fuel, i < fuel →
      (∀ j, j < i → ∃ w,
        env.inviteLookup (l + j) (loopCandidate env u d j) = .ok (some w)) →
      env.inviteLookup (l + i) (loopCandidate env u d i) = .ok none →
      genLoop env u d l fuel = .found (loopCandidate env u d i) := by
  intro i
  induction i with
  | zero =>
    intro d l fuel hf _ hnone
    cases fuel with
    | zero => omega
    | succ f =>
      rw [Nat.add_zero, loopCandidate_of_take env u d 0 htb, Nat.add_zero] at hnone
      simp only [genLoop, inviteCode_new_of_take (env.digits d) htb, hnone]
      rw [loopCandidate_of_take env u d 0 htb, Nat.add_zero]
  | succ i' ih =>
    intro d l fuel hf hprev hnone
    cases fuel with
    | zero => omega
    | succ f =>
      obtain ⟨w, hw⟩ := hprev 0 (Nat.succ_pos _)
      rw [Nat.add_zero, loopCandidate_of_take env u d 0 htb, Nat.add_zero] at hw
      simp only [genLoop, inviteCode_new_of_take (env.digits d) htb, hw]
      rw [← loopCandidate_succ]
      apply ih (d + 1) (l + 1) f (by omega)
      · intro j hj
        obtain ⟨w', hw'⟩ := hprev (j + 1) (by omega)
        refine ⟨w', ?_⟩
        rw [show l + 1 + j = l + (j + 1) from by omega, loopCandidate_succ]
        exact hw'
      · rw [show l + 1 + i' = l + (i' + 1) from by omega, loopCandidate_succ]
        exact hnone

/-- C6: the retry loop accepts a candidate only after the store lookup
of its own iteration confirmed that no existing user owns it (soundness),
terminates — provided the three-byte slice of the username succeeds, so
`InviteCode::new` does not panic — exactly at the first iteration whose
candidate the store confirms ownerless (completeness), and the accepted
candidate is the invite code of the row `authenticate` then creates. -/
theorem invite_loop_confirms_uniqueness (env : Env) (u : String) :
    (∀ fuel d l c, genLoop env u d l fuel = .found c →
      ∃ i, i < fuel ∧ c = loopCandidate env u d i ∧
        env.inviteLookup (l + i) c = .ok none ∧
        ∀ j, j < i → ∃ w,
          env.inviteLookup (l + j) (loopCandidate env u d j) = .ok (some w)) ∧
    (∀ i d l fuel, (∃ pre, takeBytes u.data 3 = some pre) → i < fuel →
      (∀ j, j < i → ∃ w,
        env.inviteLookup (l + j) (loopCandidate env u d j) = .ok (some w)) →
      env.inviteLookup (l + i) (loopCandidate env u d i) = .ok none →
      genLoop env u d l fuel = .found (loopCandidate env u d i)) ∧
    (∀ fuel (req : AuthenticateRequest) ref c, req.username = u →
      env.userLookup 0 u = .ok none →
      referrerStep env req.invitationCode = .ok ref →
      genLoop env u 0 (if req.invitationCode.isSome then 1 else 0) fuel = .found c →
      env.create u c ref = .ok () →
      (authenticate env fuel req).created = [⟨u, c, ref⟩]) := by
  refine ⟨genLoop_found_sound env u, ?_, ?_⟩
  · intro i d l fuel hex
    obtain ⟨pre, htb⟩ := hex
    exact genLoop_found_complete env u htb i d l fuel
  intro fuel req ref c hreq h0 h1 h2 h3
  subst hreq
  simp only [authenticate, h0, h1, h2, h3]
  cases hre : env.userLookup 1 req.username with
  | error e => simp [hre]
  | ok o =>
    cases o with
    | none => simp [hre]
    | some user2 =>
      cases htk : env.tokenGen user2.username with
      | error e => simp [hre, htk]
      | ok tok => simp [hre, htk]

/-- C6 witness: against a store whose first candidate `ali1001` is
already owned and whose second draw `ali1002` is free, the loop
terminates at the second iteration with `ali1002`. -/
theorem invite_loop_confirms_uniqueness_witness :
    genLoop envOneCollision "alice" 0 0 3 = .found "ali1002" := by
  have h := (invite_loop_confirms_uniqueness envOneCollision "alice").2.1 1 0 0 3
    ⟨['a', 'l', 'i'], by decide⟩ (by decide)
    (by
      intro j hj
      interval_cases j
      exact ⟨⟨"bob", "ali1001", none, 0⟩, rfl⟩)
    rfl
  exact h.trans (by decide)

/-- C7: in every execution of `authenticate` — both branches, all store
answers, any fuel — no event publication occurs after the token
issuance; and on the successful registration path the publications are
`NewReferral` (exactly when the re-read row has a referrer), then
`NewRegister`, and only then the issuance. -/
theorem publications_precede_issuance (env : Env) (fuel : Nat) (req : AuthenticateRequest) :
    noPublishAfterIssue (authenticate env fuel req).actions = true ∧
    (∀ ref c user tok,
      env.userLookup 0 req.username = .ok none →
      referrerStep env req.invitationCode = .ok ref →
      genLoop env req.username 0
        (if req.invitationCode.isSome then 1 else 0) fuel = .found c →
      env.create req.username c ref = .ok () →
      env.userLookup 1 req.username = .ok (some user) →
      env.tokenGen user.username = .ok tok →
      (authenticate env fuel req).actions =
        (match user.referred_by with
          | some r => [Action.publish (.NewReferral ⟨r, user.username⟩)]
          | none => []) ++ [.publish (.NewRegister user), .issue tok]) := by
  constructor
  · cases h0 : env.userLookup 0 req.username with
    | error e => simp only [authenticate, h0]; rfl
    | ok o =>
      cases o with
      | some user =>
        cases h1 : env.tokenGen user.username with
        | error e => simp only [authenticate, h0, h1]; rfl
        | ok tok => simp only [authenticate, h0, h1]; rfl
      | none =>
        cases h1 : referrerStep env req.invitationCode with
        | error e => simp only [authenticate, h0, h1]; rfl
        | ok ref =>
          cases h2 : genLoop env req.username 0
              (if req.invitationCode.isSome then 1 else 0) fuel with
          | panicked => simp only [authenticate, h0, h1, h2]; rfl
          | dbError e => simp only [authenticate, h0, h1, h2]; rfl
          | fuelOut => simp only [authenticate, h0, h1, h2]; rfl
          | found c =>
            cases h3 : env.create req.username c ref with
            | error e => simp only [authenticate, h0, h1, h2, h3]; rfl
            | ok a =>
              cases h4 : env.userLookup 1 req.username with
              | error e => simp only [authenticate, h0, h1, h2, h3, h4]; rfl
              | ok o2 =>
                cases o2 with
                | none => simp only [authenticate, h0, h1, h2, h3, h4]; rfl
                | some user2 =>
                  cases h6 : user2.referred_by with
                  | some r =>
                    cases h5 : env.tokenGen user2.username with
                    | error e =>
                      simp only [authenticate, h0, h1, h2, h3, h4, h5, h6]; rfl
                    | ok tok =>
                      simp only [authenticate, h0, h1, h2, h3, h4, h5, h6]; rfl
                  | none =>
                    cases h5 : env.tokenGen user2.username with
                    | error e =>
                      simp only [authenticate, h0, h1, h2, h3, h4, h5, h6]; rfl
                    | ok tok =>
                      simp only [authenticate, h0, h1, h2, h3, h4, h5, h6]; rfl
  · intro ref c user tok h0 h1 h2 h3 h4 h5
    simp only [authenticate, h0, h1, h2, h3, h4, h5]

/-- C7 witness: the registration-with-referral path against a store that
owns the supplied code: `NewReferral`, then `NewRegister`, then the
token. -/
theorem publications_precede_issuance_witness :
    noPublishAfterIssue (authenticate envReferral 5 ⟨"dave", some "ann4321"⟩).actions = true ∧
    (authenticate envReferral 5 ⟨"dave", some "ann4321"⟩).actions =
      [.publish (.NewReferral ⟨"ann", "dave"⟩),
       .publish (.NewRegister ⟨"dave", "dav1234", some "ann", 0⟩),
       .issue "token-dave"] := by
  have h := publications_precede_issuance envReferral 5 ⟨"dave", some "ann4321"⟩
  exact ⟨h.1, h.2 (some "ann") "dav1234" ⟨"dave", "dav1234", some "ann", 0⟩ "token-dave"
    rfl rfl (by decide) rfl rfl rfl⟩

/-- Helper: appending raw SQL preserves a substring decomposition of the
text built so far. -/
theorem exists_decomp_push {b : QueryBuilder} {mid : String}
    (h : ∃ pre post, b.sql = pre ++ mid ++ post) (t : String) :
    ∃ pre post, (b.push t).sql = pre ++ mid ++ post := by
  obtain ⟨pre, post, hp⟩ := h
  exact ⟨pre, post ++ t, by simp [QueryBuilder.push, hp, String.append_assoc]⟩

/-- Helper: appending a bind placeholder preserves a substring
decomposition of the text built so far. -/
theorem exists_decomp_push_bind {b : QueryBuilder} {mid : String}
    (h : ∃ pre post, b.sql = pre ++ mid ++ post) (v : BindValue) :
    ∃ pre post, (b.push_bind v).sql = pre ++ mid ++ post := by
  obtain ⟨pre, post, hp⟩ := h
  exact ⟨pre, post ++ "$" ++ toString (b.binds.length + 1),
    by simp [QueryBuilder.push_bind, hp, String.append_assoc]⟩

/-- C10: when the users-list query carries a username filter `s`, the
generated SQL text contains the fragment `and username like \x27%s%\x27` with
`s` spliced in character for character — no escaping, no placeholder —
while the parameters bound by the builder are exactly `auth_user` and
(unless pagination is skipped) `limit` and `skip`. -/
theorem username_filter_spliced_verbatim (b0 : QueryBuilder) (q : FetchUserQuery)
    (s : String) (so sp : Bool) (h : q.username = some s) :
    (∃ pre post, (append_search_param_to_query b0 q so sp).sql =
      pre ++ (" and username like \x27%" ++ s ++ "%\x27 ") ++ post) ∧
    (append_search_param_to_query b0 q so sp).binds =
      b0.binds ++ [.str q.auth_user] ++
        (if sp then [] else [.int q.limit, .int q.skip]) := by
  have base : ∃ pre post,
      (((b0.push " where username != ").push_bind (.str q.auth_user)).push
        (" and username like \x27%" ++ s ++ "%\x27 ")).sql =
      pre ++ (" and username like \x27%" ++ s ++ "%\x27 ") ++ post := by
    refine ⟨((b0.push " where username != ").push_bind (.str q.auth_user)).sql, "", ?_⟩
    simp [QueryBuilder.push, String.append_assoc, String.append_empty]
  constructor
  · unfold append_search_param_to_query
    rw [h]
    cases so with
    | false =>
      cases sp with
      | false =>
        exact exists_decomp_push_bind (exists_decomp_push (exists_decomp_push_bind
          (exists_decomp_push (exists_decomp_push base " order by created_on desc ")
            " limit ") (.int q.limit)) " offset ") (.int q.skip)
      | true =>
        exact exists_decomp_push base " order by created_on desc "
    | true =>
      cases sp with
      | false =>
        exact exists_decomp_push_bind (exists_decomp_push (exists_decomp_push_bind
          (exists_decomp_push base " limit ") (.int q.limit)) " offset ") (.int q.skip)
      | true =>
        exact base
  · unfold append_search_param_to_query
    rw [h]
    cases so <;> cases sp <;>
      simp [QueryBuilder.push, QueryBuilder.push_bind, List.append_assoc]

/-- C10 witness: the count query (`skip_ordering = skip_pagination =
true`) with filter `"bob"` and authenticated user `"alice"`. -/
theorem username_filter_spliced_verbatim_witness :
    (∃ pre post,
      (append_search_param_to_query ⟨"select count(*) from users as count ", []⟩
        ⟨some "bob", "alice", 10, 10⟩ true true).sql =
      pre ++ (" and username like \x27%" ++ "bob" ++ "%\x27 ") ++ post) ∧
    (append_search_param_to_query ⟨"select count(*) from users as count ", []⟩
        ⟨some "bob", "alice", 10, 10⟩ true true).binds =
      [] ++ [.str "alice"] ++ (if true then [] else [.int 10, .int 10]) :=
  username_filter_spliced_verbatim ⟨"select count(*) from users as count ", []⟩
    ⟨some "bob", "alice", 10, 10⟩ "bob" true true rfl

end Kpowa
